import Mathlib

/-!
Verification of the YASNAC FC1 / ERC serial-protocol implementation.

The Python 2 sources (`packets.py`, `motodisk.py`, `erc.py`) work on byte
strings; we embed byte strings as `List Nat` (each element an `ord` value).
Partial Python operations (`struct.pack` range errors, `list.pop` on an
empty list, `str.format` with a missing positional argument) are embedded
as `Option` / `Except` values.
-/

/-- Byte string literal helper: the list of `ord` values of an ASCII string. -/
def s2b (s : String) : List Nat := s.toList.map Char.toNat

/-- Python 2.7 `struct.pack` with format `"<H"` (also `"<H2"`: a trailing
repeat count is silently ignored in Python 2): two little-endian bytes.
Out-of-range arguments raise `struct.error`, embedded as `none`. -/
def struct_pack_H (n : Int) : Option (List Nat) :=
  if 0 ≤ n ∧ n ≤ 65535 then some [n.toNat % 256, n.toNat / 256] else none

/-- Python `struct.unpack("<H", s)` on a byte string: requires exactly two
bytes (otherwise `struct.error`, embedded as `none`). -/
def struct_unpack_H (s : List Nat) : Option Nat :=
  match s with
  | [a, b] => some (a + 256 * b)
  | _ => none

instance {ε α : Type} [DecidableEq ε] [DecidableEq α] : DecidableEq (Except ε α)
  | .ok a, .ok b =>
    if h : a = b then isTrue (by rw [h]) else isFalse (fun hh => h (Except.ok.inj hh))
  | .ok _, .error _ => isFalse (fun hh => Except.noConfusion hh)
  | .error _, .ok _ => isFalse (fun hh => Except.noConfusion hh)
  | .error e, .error f =>
    if h : e = f then isTrue (by rw [h]) else isFalse (fun hh => h (Except.error.inj hh))

/-- Python `s.rfind(c)` for a one-byte needle: highest index of `c` in `s`,
or `-1` when absent. -/
def pyRfind (c : Nat) (s : List Nat) : Int :=
  match (s.reverse).findIdx? (fun x => x == c) with
  | none => -1
  | some i => ((s.length - 1 - i : Nat) : Int)

/-- Python `os.path.splitext` (posixpath): split at the last dot, except that
a basename consisting only of leading dots up to that dot is not split. -/
def pySplitext (p : List Nat) : List Nat × List Nat :=
  let sepIndex := pyRfind 47 p
  let dotIndex := pyRfind 46 p
  if sepIndex < dotIndex then
    let filenameIndex := sepIndex + 1
    if (List.range p.length).any (fun k =>
        decide (filenameIndex ≤ (k : Int)) && decide ((k : Int) < dotIndex) &&
        (p.getD k 0 != 46)) then
      (p.take dotIndex.toNat, p.drop dotIndex.toNat)
    else (p, [])
  else (p, [])

/-- Python `os.path.basename`: everything after the last slash. -/
def pyBasename (p : List Nat) : List Nat := p.drop (pyRfind 47 p + 1).toNat

/-- Python `str.isspace` set used by `strip`: space, tab, LF, CR, VT, FF. -/
def isSpaceByte (c : Nat) : Bool :=
  c == 32 || c == 9 || c == 10 || c == 13 || c == 11 || c == 12

/-- Python `str.rstrip()`. -/
def pyRstrip (s : List Nat) : List Nat := (s.reverse.dropWhile isSpaceByte).reverse

/-- Python `str.strip()`. -/
def pyStrip (s : List Nat) : List Nat := (pyRstrip s).dropWhile isSpaceByte

/-- Python `str.partition` for a one-byte separator: `(before, sep, after)`,
with `(s, "", "")` when the separator does not occur. -/
def pyPartition (sep : Nat) (s : List Nat) : List Nat × List Nat × List Nat :=
  let pre := s.takeWhile (fun c => c != sep)
  match s.drop pre.length with
  | [] => (s, [], [])
  | _ :: t => (pre, [sep], t)

/-- Worker for `pySplitlines`; the accumulator holds the current line in
reverse.  Line boundaries are `\r\n`, `\r`, `\n` (Python 2 `str.splitlines`). -/
def splitlinesAux : List Nat → List Nat → List (List Nat)
  | [], [] => []
  | [], acc => [acc.reverse]
  | 13 :: 10 :: t, acc => acc.reverse :: splitlinesAux t []
  | 13 :: t, acc => acc.reverse :: splitlinesAux t []
  | 10 :: t, acc => acc.reverse :: splitlinesAux t []
  | c :: t, acc => splitlinesAux t (c :: acc)

/-- Python `str.splitlines()`. -/
def pySplitlines (s : List Nat) : List (List Nat) := splitlinesAux s []

/-- Worker for `chunksOf`, with explicit fuel (initially the list length) so
that the recursion is structural and kernel-reducible. -/
def chunksGo (n : Nat) : Nat → List Nat → List (List Nat)
  | _, [] => []
  | 0, _ => []
  | fuel + 1, c :: t => (c :: t.take (n - 1)) :: chunksGo n fuel (t.drop (n - 1))

/-- The `chunks(iterable, n)` generator shared by motodisk.py and erc.py:
successive slices of at most `n` bytes. -/
def chunksOf (n : Nat) (l : List Nat) : List (List Nat) := chunksGo n l.length l

/-- Python `s.ljust(n)` as done by `"\x7b:12\x7d".format(s)`: pad on the
right with spaces to width `n`. -/
def pyLjust (n : Nat) (s : List Nat) : List Nat :=
  s ++ List.replicate (n - s.length) 32

/-- Decimal digit bytes of a natural number. -/
def natDigits (n : Nat) : List Nat := (Nat.toDigits 10 n).map Char.toNat

/-- Zero padding as done by `"\x7b:04\x7d".format(n)`. -/
def pyZfill (w : Nat) (n : Nat) : List Nat :=
  let d := natDigits n
  List.replicate (w - d.length) 48 ++ d

namespace FC1

/-- Error kinds raised by `packets.decode`: `InvalidPacketHeader`,
`NeedMoreInput`, the checksum `ValueError`, and `struct.error`. -/
inductive DecodeError
  | invalidPacketHeader
  | needMoreInput
  | checksumError
  | structError
deriving DecidableEq

/-- Embeds `packets.encode` (packets.py lines 14-19):
`length_str = struct.pack("<H2", len(payload))`;
`checksum = struct.pack("<H2", 65536 - sum(ord(c) for c in length_str + payload))`;
result `"\x02" + length_str + payload + checksum`.  Note the missing
`mod 65536`: when the byte sum is `0` or exceeds `65536` the `struct.pack`
call raises, embedded as `none`. -/
def encode (payload : List Nat) : Option (List Nat) :=
  (struct_pack_H (payload.length : Int)).bind fun length_str =>
    (struct_pack_H ((65536 : Int) - ((length_str ++ payload).sum : Int))).bind fun chk =>
      some ([2] ++ length_str ++ payload ++ chk)

/-- Embeds `packets.decode` (packets.py lines 22-52): check the `\x02` start
byte, unpack the two length bytes, demand `length + 5` bytes, recompute the
checksum over the length bytes plus payload and compare with the stated one;
return the payload without the two length bytes, and the consumed count. -/
def decode (packet : List Nat) : Except DecodeError (List Nat × Nat) :=
  if packet.take 1 ≠ [2] then .error .invalidPacketHeader
  else
    match struct_unpack_H ((packet.take 3).drop 1) with
    | none => .error .structError
    | some length =>
      if packet.length < length + 5 then .error .needMoreInput
      else
        let payload := (packet.take (3 + length)).drop 1
        let stated_checksum := (packet.take (5 + length)).drop (3 + length)
        match struct_pack_H ((65536 : Int) - (payload.sum : Int)) with
        | none => .error .structError
        | some calc_checksum =>
          if stated_checksum ≠ calc_checksum then .error .checksumError
          else .ok (payload.drop 2, length + 5)

end FC1

namespace MotoDisk

/-- Python exceptions surfaced by the FWT rename logic. -/
inductive PyErr
  | indexError
  | loopLimit
deriving DecidableEq

/-- A Python value as it can appear among the elements of the list passed to
the malformed rename format string. -/
inductive PyVal
  | str (s : List Nat)
  | int (n : Nat)
deriving DecidableEq

/-- A positional argument of `str.format`: either a plain value or a list. -/
inductive PyObj
  | val (v : PyVal)
  | list (l : List PyVal)
deriving DecidableEq

/-- Python `repr` of a value as it appears inside `str(list)`. -/
def pyValRepr : PyVal → List Nat
  | .str s => [39] ++ s ++ [39]
  | .int n => natDigits n

/-- Python `str` of a format argument (`str(list)` shows the bracketed,
comma-separated reprs of the elements). -/
def pyObjStr : PyObj → List Nat
  | .val (.str s) => s
  | .val (.int n) => natDigits n
  | .list l => [91] ++ List.intercalate (s2b ", ") (l.map pyValRepr) ++ [93]

/-- The rename format string of motodisk.py line 215 (fields 0, then 2, then
a literal dash between 0 and 2, then 1) applied to its positional arguments.
Referencing a missing positional index raises `IndexError`. -/
def pyFormat_0_2_1 (args : List PyObj) : Except PyErr (List Nat) :=
  match args[0]?, args[2]?, args[1]? with
  | some a0, some a2, some a1 =>
    .ok (pyObjStr a0 ++ [45] ++ pyObjStr a2 ++ pyObjStr a1)
  | _, _, _ => .error .indexError

/-- One rename attempt (motodisk.py lines 215-217): the format string is
called with the single positional argument
`list(os.path.splitext(original_filename)) + [rename_counter]`, so the
field references 1 and 2 are out of range. -/
def fwt_rename (original : List Nat) (counter : Nat) : Except PyErr (List Nat) :=
  pyFormat_0_2_1 [PyObj.list [PyVal.str (pySplitext original).1,
                              PyVal.str (pySplitext original).2,
                              PyVal.int counter]]

/-- The `while os.path.exists(filename)` rename loop, with fuel to bound the
loop for termination. -/
def fwt_rename_loop (ex : List Nat → Bool) (original : List Nat) :
    Nat → Nat → List Nat → Except PyErr (List Nat)
  | _, 0, _ => .error .loopLimit
  | counter, fuel + 1, filename =>
    if ex filename then
      match fwt_rename original counter with
      | .error e => .error e
      | .ok fn => fwt_rename_loop ex original (counter + 1) fuel fn
    else .ok filename

/-- Write-target resolution of the FWT branch (motodisk.py lines 208-220):
keep the name if overwriting is allowed or the target is absent, otherwise
enter the rename loop.  `ex` is `os.path.exists`. -/
def fwt_resolve (ex : List Nat → Bool) (overwrite : Bool) (filename : List Nat) :
    Except PyErr (List Nat) :=
  if !overwrite && ex filename then fwt_rename_loop ex filename 1 1000000 filename
  else .ok filename

/-- What `input_packet_streamer` (motodisk.py lines 119-138) does with one
parse-buffer state: yield a decoded packet, slide off one byte on
`InvalidPacketHeader`, read more input on `NeedMoreInput` — and let any
other exception propagate out of the generator. -/
inductive StreamerAction
  | yieldPacket (data : List Nat) (rest : List Nat)
  | popByte
  | readMore
  | uncaught (e : FC1.DecodeError)
deriving DecidableEq

/-- One step of the streaming decoder over the current parse buffer. -/
def streamer_step (parse_buffer : List Nat) : StreamerAction :=
  match FC1.decode parse_buffer with
  | .ok (data, n) => .yieldPacket data (parse_buffer.drop n)
  | .error .invalidPacketHeader => .popByte
  | .error .needMoreInput => .readMore
  | .error e => .uncaught e

/-- Python truthiness of the `filelist` attribute (`None` or a list). -/
def pyTruthyList (fl : Option (List (List Nat))) : Bool :=
  match fl with
  | none => false
  | some l => !l.isEmpty

/-- The response the `emulate` loop (motodisk.py lines 140-241) produces for
one decoded packet.  File I/O continuations are abstracted into the action:
`fileRead` / `fileWrite` record that the engine proceeds to serve / accept
the named file. -/
inductive Action
  | writeAck
  | noop
  | cancelRecover
  | listReply (msg : List Nat)
  | dszReply (msg : List Nat)
  | fatalWhitelist
  | fileRead (filename : List Nat)
  | fileWrite (target : List Nat)
  | pyError (e : PyErr)
  | unhandled
deriving DecidableEq

/-- One dispatch step of `SoftFC1.emulate`: `filelist` and `overwrite` are
the constructor arguments, `ex` is `os.path.exists`, `listdir` is
`os.listdir('.')`, `packet` is the decoded payload. -/
def emulateStep (filelist : Option (List (List Nat))) (overwrite : Bool)
    (ex : List Nat → Bool) (listdir : List (List Nat)) (packet : List Nat) :
    Action :=
  if packet = s2b "ENQ" then .writeAck
  else if packet = s2b "EOT" then .noop
  else if packet = s2b "CAN" then .cancelRecover
  else if packet = s2b "ACK" then .noop
  else if packet = s2b "LST" then
    let job_files :=
      if pyTruthyList filelist then
        ((filelist.getD []).filter ex).map (pyLjust 12)
      else
        (listdir.filter (fun f => (s2b ".JBI").isSuffixOf f &&
          decide (4 < f.length) && decide (f.length < 17))).map (pyLjust 12)
    .listReply (s2b "LST" ++ pyZfill 4 job_files.length ++ job_files.flatten)
  else if packet = s2b "DSZ" then .dszReply (s2b "DSZ00729088")
  else if (s2b "FRD").isPrefixOf packet then
    let filename := pyRstrip (packet.drop 3)
    if pyTruthyList filelist && !((filelist.getD []).contains filename) then
      .fatalWhitelist
    else .fileRead filename
  else if (s2b "FWT").isPrefixOf packet then
    let filename := pyRstrip (packet.drop 3)
    match fwt_resolve ex overwrite filename with
    | .ok target => .fileWrite target
    | .error e => .pyError e
  else .unhandled

end MotoDisk

namespace ERC

/-- erc.py control bytes. -/
def SOHb : Nat := 1
def STXb : Nat := 2
def ETXb : Nat := 3
def ETBb : Nat := 23

/-- ACK0 is DLE `0x30`, ACK1 is DLE `0x31`, EOT is the single byte 4. -/
def ACK0 : List Nat := [16, 48]
def ACK1 : List Nat := [16, 49]
def EOTs : List Nat := [4]

/-- The TRANSACTIONS table of erc.py lines 52-111 (header code, description). -/
def TRANSACTIONS : List (List Nat × List Nat) :=
  [ (s2b "01,000", s2b "command from remote computer"),
    (s2b "02,001", s2b "put *.JBI"),
    (s2b "02,002", s2b "put *.JBR"),
    (s2b "02,011", s2b "put WEAV.DAT"),
    (s2b "02,012", s2b "put TOOL.DAT"),
    (s2b "02,013", s2b "put UFRAME.DAT"),
    (s2b "02,014", s2b "put ABSWELD.DAT"),
    (s2b "02,015", s2b "put CV.DAT"),
    (s2b "02,016", s2b "put SENSOR.DAT"),
    (s2b "02,017", s2b "put COMARC2.DAT"),
    (s2b "02,018", s2b "put PC1PC2.DAT"),
    (s2b "02,020", s2b "put POSOUT.DAT"),
    (s2b "02,022", s2b "put RECIPRO.DAT"),
    (s2b "02,023", s2b "put PALACT.DAT"),
    (s2b "02,030", s2b "put SYSTEM.DAT"),
    (s2b "02,051", s2b "get *.JBI"),
    (s2b "02,052", s2b "get *.JBR"),
    (s2b "02,061", s2b "get WEAV.DAT"),
    (s2b "02,062", s2b "get TOOL.DAT"),
    (s2b "02,063", s2b "get UFRAME.DAT"),
    (s2b "02,064", s2b "get ABSWELD.DAT"),
    (s2b "02,065", s2b "get CV.DAT"),
    (s2b "02,066", s2b "get SENSOR.DAT"),
    (s2b "02,067", s2b "get COMARC2.DAT"),
    (s2b "02,068", s2b "get PC1PC2.DAT"),
    (s2b "02,070", s2b "get POSOUT.DAT"),
    (s2b "02,072", s2b "get RECIPRO.DAT"),
    (s2b "02,073", s2b "get PALACT.DAT"),
    (s2b "02,080", s2b "get SYSTEM.DAT"),
    (s2b "03,001", s2b "put byte"),
    (s2b "03,002", s2b "put integer"),
    (s2b "03,003", s2b "put double"),
    (s2b "03,004", s2b "put real"),
    (s2b "03,005", s2b "put position (pulse data)"),
    (s2b "03,006", s2b "put position (rectangular data)"),
    (s2b "03,007", s2b "put external axis (pulse data)"),
    (s2b "03,008", s2b "put external axis (rectangular data)"),
    (s2b "03,051", s2b "get byte"),
    (s2b "03,052", s2b "get integer"),
    (s2b "03,053", s2b "get double"),
    (s2b "03,054", s2b "get real"),
    (s2b "03,055", s2b "get position (pulse data)"),
    (s2b "03,056", s2b "get position (rectangular data)"),
    (s2b "03,057", s2b "get external axis (pulse data)"),
    (s2b "03,058", s2b "get external axis (rectangular data)"),
    (s2b "90,000", s2b "0000 or a 4 digit error code, response to a command"),
    (s2b "90,001", s2b "data response, variable number of digits/data sent as csv") ]

/-- Python `TRANSACTIONS.get(k, dflt)`. -/
def transactions_get (k dflt : List Nat) : List Nat :=
  match TRANSACTIONS.find? (fun kv => kv.1 == k) with
  | some kv => kv.2
  | none => dflt

/-- `header_extension_lookup` (erc.py lines 381-385): the extension part of
the description looked up in TRANSACTIONS (default `"UNKNOWN.DAT"`). -/
def header_extension_lookup (header : List Nat) : List Nat :=
  (pySplitext (transactions_get header (s2b "UNKNOWN.DAT"))).2

/-- `header_code_lookup` (erc.py lines 361-378): reverse lookup of the
TRANSACTIONS table from a key built out of the mode and the filename
(collapsed to `*.JBI` / `*.JBR` for job files).  The `RuntimeError` raised
when no transaction matches is embedded as `none`. -/
def header_code_lookup (mode filename : List Nat) : Option (List Nat) :=
  let key := mode ++ [32] ++
    (if (s2b ".JBI").isSuffixOf filename then s2b "*.JBI"
     else if (s2b ".JBR").isSuffixOf filename then s2b "*.JBR"
     else pyBasename filename)
  (TRANSACTIONS.find? (fun kv => kv.2 == key)).map (fun kv => kv.1)

/-- `filename_to_rootname` (erc.py lines 332-337). -/
def filename_to_rootname (f : List Nat) : List Nat := (pySplitext (pyBasename f)).1

/-- `namefix` (erc.py lines 340-358): rewrite any `//NAME ` line that differs
from the expected entry, rejoin with `\r\n`, and append a final `\r\n`. -/
def namefix (filename content : List Nat) : List Nat :=
  let expected_entry := s2b "//NAME " ++ filename_to_rootname filename
  let result := (pySplitlines content).map (fun line =>
    if (s2b "//NAME ").isPrefixOf line ∧ line ≠ expected_entry then expected_entry
    else line)
  List.intercalate [13, 10] result ++ [13, 10]

/-- `ERC.current_ack` (erc.py lines 459-463): return ACK1 when the bit is
set, ACK0 otherwise, and flip the bit. -/
def current_ack (ack_bit : Bool) : List Nat × Bool :=
  (if ack_bit then ACK1 else ACK0, !ack_bit)

/-- Output of the `n`-th `current_ack()` call (0-based) starting from the
given ack bit. -/
def nth_ack (b : Bool) : Nat → List Nat
  | 0 => (current_ack b).1
  | n + 1 => nth_ack (current_ack b).2 n

/-- `ERC.send_eot` (erc.py lines 471-474): write EOT, clear the ack bit. -/
def send_eot (_ack_bit : Bool) : List Nat × Bool := (EOTs, false)

/-- `ERC.receive_eot` (erc.py lines 476-483): optionally read the wire and
raise `InvalidTransaction(EOT, got)` unless an EOT is there, then clear the
ack bit.  The error value carries (expected, received); note that on a raise
the `self.ack_bit = False` line is never reached. -/
def receive_eot (read_from_wire : Bool) (wire : List Nat) (_ack_bit : Bool) :
    Except (List Nat × List Nat) Bool :=
  if read_from_wire then
    if wire ≠ EOTs then .error (EOTs, wire) else .ok false
  else .ok false

/-- `ERC.confirmed_write` (erc.py lines 504-516) driven by the successive
`raw_read` results: each attempt writes the block, calls `current_ack()`
(flipping the bit), reads a reply and compares.  Returns the number of
attempts used and the final ack bit; `none` when the supplied replies run
out with the loop still spinning. -/
def confirmed_write_run (ack_bit : Bool) : List (List Nat) → Option (Nat × Bool)
  | [] => none
  | reply :: rest =>
    let ca := current_ack ack_bit
    if reply = ca.1 then some (1, ca.2)
    else
      match confirmed_write_run ca.2 rest with
      | some nb => some (nb.1 + 1, nb.2)
      | none => none

/-- `checksum` (erc.py lines 258-260): `sum(ord(c) for c in block[start:stop])`,
called everywhere with the default `start = 1`. -/
def checksum (block : List Nat) (stop start : Nat) : Nat :=
  ((block.take stop).drop start).sum

/-- The two checksum bytes `encode` appends to a block core (little-endian
sum of the core bytes from index 1). -/
def chkOf (blk : List Nat) : List Nat :=
  [(blk.drop 1).sum % 256, (blk.drop 1).sum / 256]

/-- `block += struct.pack("<H", checksum(block, len(block) + 2))`; the pack
raises (here: `none`) when the sum exceeds `0xFFFF`. -/
def appendChecksum (blk : List Nat) : Option (List Nat) :=
  (struct_pack_H ((checksum blk (blk.length + 2) 1 : Nat) : Int)).map
    (fun c => blk ++ c)

/-- The `body_chunks` list of `encode` (erc.py lines 270-276). -/
def bodyChunks (body : List Nat) (name_block : Bool) : List (List Nat) :=
  if name_block then
    ((pyPartition 13 body).1 ++ [13]) :: chunksOf 256 (pyPartition 13 body).2.2
  else chunksOf 256 body

/-- Leading bytes of the `j`-th block: SOH, header and STX for block 0, a
bare STX for continuation blocks. -/
def blockHdr (header_code : List Nat) : Nat → List Nat
  | 0 => [SOHb] ++ header_code ++ [STXb]
  | _ + 1 => [STXb]

/-- Terminator of the `j`-th of `total` blocks: ETX on the last block, ETB
before. -/
def blockTerm (total j : Nat) : Nat := if j = total - 1 then ETXb else ETBb

/-- The `for index, chunk in enumerate(body_chunks)` loop of `encode`
(erc.py lines 288-291), after `final_chunk` was decremented to `fc`. -/
def encodeRest (fc : Nat) : Nat → List (List Nat) → Option (List (List Nat))
  | _, [] => some []
  | index, chunk :: t =>
    match appendChecksum ([STXb] ++ chunk ++ [if index < fc then ETBb else ETXb]) with
    | none => none
    | some b =>
      match encodeRest fc (index + 1) t with
      | none => none
      | some bs => some (b :: bs)

/-- `encode` (erc.py lines 263-293).  `body_chunks.pop(0)` raises
`IndexError` on an empty chunk list (embedded as `none`), and any
`struct.pack` overflow also propagates as `none`. -/
def encode (header_code body : List Nat) (name_block : Bool) :
    Option (List (List Nat)) :=
  match bodyChunks body name_block with
  | [] => none
  | chunk0 :: rest =>
    let fc := rest.length
    match appendChecksum ([SOHb] ++ header_code ++ [STXb] ++ chunk0 ++
        [if 0 < fc then ETBb else ETXb]) with
    | none => none
    | some b0 =>
      match encodeRest (fc - 1) 0 rest with
      | none => none
      | some bs => some (b0 :: bs)

/-- What `ERC.handle_incoming_file` (erc.py lines 529-547) does, as data:
the filename it opens for writing, the bytes it writes, and the
`short_message(header, body)` confirmation it sends (when `confirm`). -/
structure IncomingFileResult where
  filename : List Nat
  written : List Nat
  reply : Option (List Nat × List Nat)
deriving DecidableEq

/-- `ERC.handle_incoming_file`: partition the body at the first `\r`,
append the extension implied by the header code, write the remainder
verbatim, confirm with `90,000` / `0000`. -/
def handle_incoming_file (body header : List Nat) (confirm : Bool) :
    IncomingFileResult :=
  let p := pyPartition 13 body
  ⟨p.1 ++ header_extension_lookup header,
   p.2.2,
   if confirm then some (s2b "90,000", s2b "0000") else none⟩

/-- Outcome of `ERC.handle_file_request` (erc.py lines 549-564): a `4040`
not-found reply, a `put_file` of the named file under the reverse-looked-up
header code, or the `RuntimeError` from a failed reverse lookup. -/
inductive FileRequestResult
  | notFound
  | putFile (code : List Nat) (filename : List Nat)
  | lookupFailed
deriving DecidableEq

/-- `ERC.handle_file_request`: strip the body, append the extension implied
by the request code, check existence, and delegate to `put_file` (which,
called with no explicit header, derives the code via
`header_code_lookup("put", filename)`). -/
def handle_file_request (ex : List Nat → Bool) (header body : List Nat) :
    FileRequestResult :=
  let filename := pyStrip body ++ header_extension_lookup header
  if ex filename then
    match header_code_lookup (s2b "put") filename with
    | some code => .putFile code filename
    | none => .lookupFailed
  else .notFound

/-- The incoming-file header codes registered in `ERC.__init__`
(erc.py lines 403-417). -/
def incomingFileCodes : List (List Nat) :=
  [ s2b "02,001", s2b "02,002", s2b "02,011", s2b "02,012", s2b "02,013",
    s2b "02,014", s2b "02,015", s2b "02,016", s2b "02,017", s2b "02,018",
    s2b "02,020", s2b "02,022", s2b "02,023", s2b "02,030" ]

/-- The `.DAT` file-request codes with the stem of the fixed file each one
names (from the TRANSACTIONS table). -/
def datRequestPairs : List (List Nat × List Nat) :=
  [ (s2b "02,061", s2b "WEAV"), (s2b "02,062", s2b "TOOL"),
    (s2b "02,063", s2b "UFRAME"), (s2b "02,064", s2b "ABSWELD"),
    (s2b "02,065", s2b "CV"), (s2b "02,066", s2b "SENSOR"),
    (s2b "02,067", s2b "COMARC2"), (s2b "02,068", s2b "PC1PC2"),
    (s2b "02,070", s2b "POSOUT"), (s2b "02,072", s2b "RECIPRO"),
    (s2b "02,073", s2b "PALACT"), (s2b "02,080", s2b "SYSTEM") ]

/-- Modelled from the spec's words (section 4.6 / section 8): the response
code for a request code `NN,0xx` is obtained by subtracting 50 from the last
three digits.  This is the comparison definition for the reverse-code claim,
not code from the repository. -/
def response_code_spec (req : List Nat) : Option (List Nat) :=
  match req with
  | [a, b, comma, d1, d2, d3] =>
    let n := (d1 - 48) * 100 + (d2 - 48) * 10 + (d3 - 48)
    if 51 ≤ n then
      let m := n - 50
      some ([a, b, comma] ++ [48 + m / 100 % 10, 48 + m / 10 % 10, 48 + m % 10])
    else none
  | _ => none

end ERC

lemma struct_pack_H_eq_some {n : Int} {c : List Nat}
    (h : struct_pack_H n = some c) :
    0 ≤ n ∧ n ≤ 65535 ∧ c = [n.toNat % 256, n.toNat / 256] := by
  unfold struct_pack_H at h
  split at h
  · rename_i hn
    exact ⟨hn.1, hn.2, (Option.some.injEq _ _ ▸ h).symm⟩
  · exact absurd h (by simp)

namespace FC1

/-- C1 (amended): whenever `packets.encode` succeeds, decoding its output
succeeds and returns exactly the original payload together with a consumed
count of payload length plus five.  (The `|p| ≤ 258` bound of the claim is
not even needed; what is needed is that `encode` itself does not raise,
see the counterexample on the empty payload.) -/
theorem C1_roundtrip_amended (p f : List Nat) (h : encode p = some f) :
    decode f = .ok (p, p.length + 5) := by
  simp only [encode, Option.bind_eq_some] at h
  obtain ⟨length_str, hls, chk, hck, hf⟩ := h
  obtain ⟨-, -, hls_eq⟩ := struct_pack_H_eq_some hls
  obtain ⟨-, -, hck_eq⟩ := struct_pack_H_eq_some hck
  have hlslen : length_str.length = 2 := by rw [hls_eq]; rfl
  have hcklen : chk.length = 2 := by rw [hck_eq]; rfl
  obtain ⟨a, b, hab⟩ : ∃ a b, length_str = [a, b] := List.length_eq_two.mp hlslen
  obtain ⟨c, d, hcd⟩ : ∃ c d, chk = [c, d] := List.length_eq_two.mp hcklen
  subst hab hcd
  have hf' : f = 2 :: a :: b :: (p ++ [c, d]) := by simpa using hf.symm
  subst hf'
  have ha : a = p.length % 256 := by
    have h' := hls_eq
    simp only [List.cons.injEq] at h'
    simpa [Int.toNat_ofNat] using h'.1
  have hb : b = p.length / 256 := by
    have h' := hls_eq
    simp only [List.cons.injEq] at h'
    simpa [Int.toNat_ofNat] using h'.2.1
  -- the two length bytes unpack back to p.length
  have hunp : struct_unpack_H (((2 :: a :: b :: (p ++ [c, d])).take 3).drop 1) =
      some p.length := by
    have h1 : ((2 :: a :: b :: (p ++ [c, d])).take 3).drop 1 = [a, b] := by simp
    rw [h1, ha, hb]
    simp only [struct_unpack_H]
    rw [Nat.mod_add_div]
  have hflen : (2 :: a :: b :: (p ++ [c, d])).length = p.length + 5 := by
    simp
  -- the payload slice decode recomputes over is the length bytes plus payload
  have hpay : (((2 :: a :: b :: (p ++ [c, d])).take (3 + p.length)).drop 1) =
      [a, b] ++ p := by
    have h2 : (2 :: a :: b :: (p ++ [c, d])) = (2 :: a :: b :: p) ++ [c, d] := by
      simp
    have h3 : (2 :: a :: b :: p).length = 3 + p.length := by simp; omega
    rw [h2, ← h3, List.take_left]
    rfl
  have hstated : (((2 :: a :: b :: (p ++ [c, d])).take (5 + p.length)).drop
      (3 + p.length)) = [c, d] := by
    have h2 : (2 :: a :: b :: (p ++ [c, d])) = (2 :: a :: b :: p) ++ [c, d] := by
      simp
    have h4 : (2 :: a :: b :: (p ++ [c, d])).take (5 + p.length) =
        2 :: a :: b :: (p ++ [c, d]) := by
      apply List.take_of_length_le
      omega
    have h3 : (2 :: a :: b :: p).length = 3 + p.length := by simp; omega
    rw [h4, h2, ← h3, List.drop_left]
  have hsum : ([a, b] ++ p) = (a :: b :: p) := by rfl
  simp only [decode, hunp, hpay, hstated, hflen]
  rw [if_neg (by simp)]
  simp only [Option.elim, lt_irrefl, if_false]
  rw [hck]
  simp

end FC1

/-- C1 counterexample: the empty payload has length at most 258, yet
`encode` raises `struct.error` (the byte sum is 0 and Python 2.7
`struct.pack("<H", 65536)` is out of range), so `decode(encode(""))` does
not succeed.  The same happens whenever the byte sum exceeds 65536. -/
theorem C1_encode_fails_on_empty :
    FC1.encode [] = none ∧ ([] : List Nat).length ≤ 258 := by decide

/-- C1 witness: a concrete `ENQ` frame round-trips. -/
theorem C1_roundtrip_witness :
    FC1.decode [2, 3, 0, 69, 78, 81, 25, 255] =
      .ok (s2b "ENQ", (s2b "ENQ").length + 5) :=
  FC1.C1_roundtrip_amended (s2b "ENQ") [2, 3, 0, 69, 78, 81, 25, 255] (by decide)

namespace ERC

lemma nth_ack_succ (b : Bool) (n : Nat) : nth_ack b (n + 1) = nth_ack (!b) n := rfl

lemma nth_ack_eq (n : Nat) : ∀ b, nth_ack b n =
    if n % 2 = 0 then (if b then ACK1 else ACK0) else (if b then ACK0 else ACK1) := by
  induction n with
  | zero => intro b; simp [nth_ack, current_ack]
  | succ n ih =>
    intro b
    rw [nth_ack_succ, ih (!b)]
    rcases Nat.mod_two_eq_zero_or_one n with h | h
    · have h2 : (n + 1) % 2 = 1 := by omega
      cases b <;> simp [h, h2]
    · have h2 : (n + 1) % 2 = 0 := by omega
      cases b <;> simp [h, h2]

end ERC

/-- C2: from a fresh session (ack bit false) successive `current_ack()`
outputs strictly alternate ACK0, ACK1, ACK0, …; `send_eot` writes EOT and
clears the ack bit, and a completed `receive_eot` (whether or not it reads
the wire) clears the ack bit, so the next `current_ack()` returns ACK0. -/
theorem C2_ack_alternation_and_eot_reset :
    (∀ n, ERC.nth_ack false n = if n % 2 = 0 then ERC.ACK0 else ERC.ACK1) ∧
    (∀ b, ERC.send_eot b = (ERC.EOTs, false)) ∧
    (∀ b, ERC.receive_eot true ERC.EOTs b = .ok false) ∧
    (∀ b wire, ERC.receive_eot false wire b = .ok false) ∧
    ERC.nth_ack false 0 = ERC.ACK0 := by
  refine ⟨fun n => ?_, fun b => rfl, fun b => by simp [ERC.receive_eot], fun b wire => rfl, rfl⟩
  rw [ERC.nth_ack_eq]
  split <;> rfl

namespace ERC

lemma confirmed_write_run_spec :
    ∀ (replies : List (List Nat)) (b : Bool) (n : Nat) (bf : Bool),
    confirmed_write_run b replies = some (n, bf) →
    1 ≤ n ∧ n ≤ replies.length ∧
    (∀ k, k + 1 < n → replies[k]? ≠ some (nth_ack b k)) ∧
    replies[n - 1]? = some (nth_ack b (n - 1)) ∧
    bf = (if n % 2 = 0 then b else !b) := by
  intro replies
  induction replies with
  | nil => intro b n bf h; exact absurd h (by simp [confirmed_write_run])
  | cons r rest ih =>
    intro b n bf h
    unfold confirmed_write_run at h
    by_cases hr : r = (current_ack b).1
    · rw [if_pos hr] at h
      have hn : n = 1 ∧ bf = (current_ack b).2 := by
        constructor <;> [exact (Prod.mk.injEq _ _ _ _ ▸ (Option.some.inj h)).1.symm;
          exact (Prod.mk.injEq _ _ _ _ ▸ (Option.some.inj h)).2.symm]
      obtain ⟨hn1, hbf⟩ := hn
      subst hn1
      refine ⟨le_refl 1, by simp, fun k hk => by omega, ?_, ?_⟩
      · simpa [nth_ack] using hr
      · simpa [current_ack] using hbf
    · rw [if_neg hr] at h
      cases hrec : confirmed_write_run (current_ack b).2 rest with
      | none => rw [hrec] at h; exact absurd h (by simp)
      | some nb =>
        rw [hrec] at h
        have hn : n = nb.1 + 1 ∧ bf = nb.2 := by
          constructor <;> [exact (Prod.mk.injEq _ _ _ _ ▸ (Option.some.inj h)).1.symm;
            exact (Prod.mk.injEq _ _ _ _ ▸ (Option.some.inj h)).2.symm]
        obtain ⟨hn1, hbf⟩ := hn
        have hb2 : (current_ack b).2 = !b := rfl
        obtain ⟨ih1, ih2, ih3, ih4, ih5⟩ := ih (!b) nb.1 nb.2 (hb2 ▸ hrec)
        subst hn1 hbf
        refine ⟨by omega, by simp; omega, ?_, ?_, ?_⟩
        · intro k hk
          match k with
          | 0 =>
            intro hc
            apply hr
            have : r = nth_ack b 0 := by simpa using hc
            simpa [nth_ack] using this
          | j + 1 =>
            intro hc
            apply ih3 j (by omega)
            rw [← nth_ack_succ]
            simpa using hc
        · have h1 : nb.1 + 1 - 1 = nb.1 := by omega
          have h2 : nb.1 = (nb.1 - 1) + 1 := by omega
          rw [h1, h2, List.getElem?_cons_succ, nth_ack_succ]
          exact ih4
        · rcases Nat.mod_two_eq_zero_or_one nb.1 with h2 | h2
          · have h3 : (nb.1 + 1) % 2 = 1 := by omega
            rw [ih5]
            simp [h2, h3]
          · have h3 : (nb.1 + 1) % 2 = 0 := by omega
            rw [ih5]
            simp [h2, h3]

end ERC

/-- C10: within one `confirmed_write` call every attempt — including failed
ones — invokes `current_ack()`, so the expected acknowledgement of the k-th
attempt (0-based) is the k-th element of the alternating ACK0/ACK1 sequence
from the entry ack bit, the attempt that succeeds is the first whose reply
matches that moving expectation, and the ack bit has been flipped once per
attempt when the call returns. -/
theorem C10_confirmed_write_ack_flips (b : Bool) (replies : List (List Nat))
    (n : Nat) (bf : Bool) (h : ERC.confirmed_write_run b replies = some (n, bf)) :
    1 ≤ n ∧ n ≤ replies.length ∧
    (∀ k, k + 1 < n → replies[k]? ≠ some (ERC.nth_ack b k)) ∧
    replies[n - 1]? = some (ERC.nth_ack b (n - 1)) ∧
    bf = (if n % 2 = 0 then b else !b) :=
  ERC.confirmed_write_run_spec replies b n bf h

/-- C10 witness: with a fresh ack bit, a first reply of NAK and a second
reply of ACK1 make `confirmed_write` succeed on the second attempt: the
first attempt expected ACK0, the retry expected ACK1. -/
theorem C10_confirmed_write_witness :
    (∀ k, k + 1 < 2 → [[21], [16, 49]][k]? ≠ some (ERC.nth_ack false k)) ∧
    [[21], [16, 49]][2 - 1]? = some (ERC.nth_ack false (2 - 1)) := by
  have h := C10_confirmed_write_ack_flips false [[21], [16, 49]] 2 false (by decide)
  exact ⟨h.2.2.1, h.2.2.2.1⟩

/-- C4: the claim describes the intended `<stem>-N<ext>` renaming, but the
code's format string is called with a single positional argument (the list
of splitext parts plus the counter), so with overwrite denied and an
existing `TEST.JBI` the FWT branch raises `IndexError` instead of producing
`TEST-1.JBI`; when the requested name does not exist it is used unchanged. -/
theorem C4_fwt_rename_raises_indexerror :
    MotoDisk.fwt_resolve (fun f => f == s2b "TEST.JBI") false (s2b "TEST.JBI") =
      .error .indexError ∧
    MotoDisk.fwt_resolve (fun f => f == s2b "TEST.JBI") false (s2b "NEW.JBI") =
      .ok (s2b "NEW.JBI") ∧
    MotoDisk.fwt_resolve (fun f => f == s2b "TEST.JBI") true (s2b "TEST.JBI") =
      .ok (s2b "TEST.JBI") ∧
    MotoDisk.emulateStep none false (fun f => f == s2b "TEST.JBI") []
      (s2b "FWTTEST.JBI") = .pyError .indexError := by
  refine ⟨by decide, by decide, by decide, by decide⟩

/-- C3 (amended): a buffer that begins with `0x02` and holds a complete
frame whose stated checksum differs from the recomputed one makes `decode`
raise the checksum `ValueError` — a distinct kind from
`InvalidPacketHeader` — and the streaming caller, which catches only
`InvalidPacketHeader` (slide one byte) and `NeedMoreInput` (read more),
lets it propagate instead of resynchronising. -/
theorem C3_checksum_mismatch_is_distinct_error (packet : List Nat) (L : Nat)
    (c : List Nat)
    (h1 : packet.take 1 = [2])
    (h2 : struct_unpack_H ((packet.take 3).drop 1) = some L)
    (h3 : L + 5 ≤ packet.length)
    (h4 : struct_pack_H ((65536 : Int) - (((packet.take (3 + L)).drop 1).sum : Int)) =
      some c)
    (h5 : (packet.take (5 + L)).drop (3 + L) ≠ c) :
    FC1.decode packet = .error .checksumError ∧
    MotoDisk.streamer_step packet = .uncaught .checksumError := by
  have hdec : FC1.decode packet = .error .checksumError := by
    unfold FC1.decode
    rw [if_neg (not_not_intro h1)]
    simp only [h2]
    rw [if_neg (by omega)]
    simp only [h4]
    rw [if_pos h5]
  exact ⟨hdec, by simp [MotoDisk.streamer_step, hdec]⟩

/-- C3 counterexample: on a complete frame with a corrupted checksum byte,
decode fails with the checksum error kind, which is not the
`INVALID_HEADER` kind the claim names, and the streaming caller does not
slide off one byte. -/
theorem C3_counterexample :
    FC1.decode [2, 3, 0, 69, 78, 81, 205, 255] = .error .checksumError ∧
    FC1.DecodeError.checksumError ≠ FC1.DecodeError.invalidPacketHeader ∧
    MotoDisk.streamer_step [2, 3, 0, 69, 78, 81, 205, 255] ≠ .popByte := by
  decide

/-- C3 witness: the amended theorem applied to that concrete frame. -/
theorem C3_witness :
    FC1.decode [2, 3, 0, 69, 78, 81, 205, 255] = .error .checksumError ∧
    MotoDisk.streamer_step [2, 3, 0, 69, 78, 81, 205, 255] =
      .uncaught .checksumError :=
  C3_checksum_mismatch_is_distinct_error [2, 3, 0, 69, 78, 81, 205, 255] 3 [25, 255]
    (by decide) (by decide) (by decide) (by decide) (by decide)

lemma pyPartition_fst (sep : Nat) (s : List Nat) :
    (pyPartition sep s).1 = s.takeWhile (fun c => c != sep) := by
  rcases hd : s.drop (s.takeWhile (fun c => c != sep)).length with - | ⟨a, t⟩ <;>
    simp only [pyPartition, hd]
  have hlen : s.length ≤ (s.takeWhile (fun c => c != sep)).length := by
    have h := congrArg List.length hd
    simp only [List.length_drop, List.length_nil] at h
    omega
  have hpre : (s.takeWhile (fun c => c != sep)) <+: s := List.takeWhile_prefix _
  exact (List.IsPrefix.eq_of_length hpre
    (le_antisymm hpre.length_le hlen)).symm

lemma pyPartition_afterSep (sep : Nat) (s : List Nat) :
    (pyPartition sep s).2.2 =
      s.drop ((s.takeWhile (fun c => c != sep)).length + 1) := by
  rcases hd : s.drop (s.takeWhile (fun c => c != sep)).length with - | ⟨a, t⟩ <;>
    simp only [pyPartition, hd]
  · have h := congrArg List.length hd
    simp only [List.length_drop, List.length_nil] at h
    exact (List.drop_eq_nil_of_le (by omega)).symm
  · have h1 : s.drop ((s.takeWhile (fun c => c != sep)).length + 1) =
        (s.drop (s.takeWhile (fun c => c != sep)).length).drop 1 := by
      rw [List.drop_drop]
    rw [h1, hd]
    rfl

/-- C7 (amended): for every incoming-file transaction code, the handler
partitions the message body at the first `\r` into base filename and
content, appends the extension implied by the code, writes the content
verbatim — no name-fix is applied and an existing file is simply
overwritten, there is no overwrite policy on this path — and (when
confirming) replies with a short message `90,000` carrying body `0000`. -/
theorem C7_incoming_file_behavior (header : List Nat)
    (_hmem : header ∈ ERC.incomingFileCodes) (body : List Nat) (confirm : Bool) :
    ERC.handle_incoming_file body header confirm =
      ⟨ body.takeWhile (fun c => c != 13) ++ ERC.header_extension_lookup header,
        body.drop ((body.takeWhile (fun c => c != 13)).length + 1),
        if confirm then some (s2b "90,000", s2b "0000") else none ⟩ := by
  simp only [ERC.handle_incoming_file]
  rw [pyPartition_fst, pyPartition_afterSep]

/-- C7 counterexample: the handler writes the incoming content verbatim; the
adapter name-fix, had it been applied as the claim says, would have
rewritten the `//NAME OTHER` line. -/
theorem C7_counterexample :
    (ERC.handle_incoming_file (s2b "JOB1\r//NAME OTHER\rNOP\r") (s2b "02,001")
        true).written = s2b "//NAME OTHER\rNOP\r" ∧
    ERC.namefix (s2b "JOB1") (s2b "//NAME OTHER\rNOP\r") ≠
      s2b "//NAME OTHER\rNOP\r" ∧
    (ERC.handle_incoming_file (s2b "JOB1\r//NAME OTHER\rNOP\r") (s2b "02,001")
        true).filename = s2b "JOB1.JBI" := by
  decide

/-- C7 witness: the amended theorem at code `02,001` with a concrete body. -/
theorem C7_witness :
    ERC.handle_incoming_file (s2b "JOB1\rNOP\r") (s2b "02,001") true =
      ⟨ (s2b "JOB1\rNOP\r").takeWhile (fun c => c != 13) ++
          ERC.header_extension_lookup (s2b "02,001"),
        (s2b "JOB1\rNOP\r").drop
          (((s2b "JOB1\rNOP\r").takeWhile (fun c => c != 13)).length + 1),
        if true then some (s2b "90,000", s2b "0000") else none ⟩ :=
  C7_incoming_file_behavior (s2b "02,001") (by decide) (s2b "JOB1\rNOP\r") true

lemma isSuffixOf_append_self (x suf : List Nat) : suf.isSuffixOf (x ++ suf) = true := by
  simp [List.isSuffixOf_iff_suffix]

lemma header_code_lookup_jbi (filename : List Nat)
    (h : (s2b ".JBI").isSuffixOf filename = true) :
    ERC.header_code_lookup (s2b "put") filename = some (s2b "02,001") := by
  simp only [ERC.header_code_lookup, h, if_true]
  decide

lemma header_code_lookup_jbr (filename : List Nat)
    (h1 : (s2b ".JBI").isSuffixOf filename = false)
    (h2 : (s2b ".JBR").isSuffixOf filename = true) :
    ERC.header_code_lookup (s2b "put") filename = some (s2b "02,002") := by
  simp only [ERC.header_code_lookup, h1, h2, Bool.false_eq_true, if_false, if_true]
  decide

lemma not_jbi_suffix_jbr (x : List Nat) :
    (s2b ".JBI").isSuffixOf (x ++ s2b ".JBR") = false := by
  rw [Bool.eq_false_iff]
  intro hb
  obtain ⟨t, ht⟩ := List.isSuffixOf_iff_suffix.mp hb
  have hr := congrArg List.reverse ht
  simp only [List.reverse_append] at hr
  have h1 : (s2b ".JBI").reverse = [73, 66, 74, 46] := by decide
  have h2 : (s2b ".JBR").reverse = [82, 66, 74, 46] := by decide
  rw [h1, h2] at hr
  have h3 := congrArg List.headI hr
  simp only [List.cons_append, List.headI] at h3
  exact absurd h3 (by decide)

lemma dat_request_case (code stem resp : List Nat)
    (hext : ERC.header_extension_lookup code = s2b ".DAT")
    (hlook : ERC.header_code_lookup (s2b "put") (stem ++ s2b ".DAT") = some resp)
    (ex : List Nat → Bool) (body : List Nat)
    (hstrip : pyStrip body = stem) (hex : ex (stem ++ s2b ".DAT") = true) :
    ERC.handle_file_request ex code body = .putFile resp (stem ++ s2b ".DAT") := by
  simp only [ERC.handle_file_request, hext, hstrip, hex, if_true, hlook]

/-- C8 (amended): the response to a handled file request whose file exists is
a `put_file` under the header code obtained by reverse lookup from the
delivered filename — not by subtracting 50 from the request code.  The two
coincide exactly when the requested name matches the request code's file
family: for `02,051` / `02,052` any name (the appended `.JBI` / `.JBR`
extension determines the put code), and for the `.DAT` request codes the
fixed stem of the file the code names. -/
theorem C8_reverse_code_via_lookup :
    (∀ (ex : List Nat → Bool) (body : List Nat),
      ex (pyStrip body ++ s2b ".JBI") = true →
        ERC.handle_file_request ex (s2b "02,051") body =
          .putFile (s2b "02,001") (pyStrip body ++ s2b ".JBI") ∧
        ERC.response_code_spec (s2b "02,051") = some (s2b "02,001")) ∧
    (∀ (ex : List Nat → Bool) (body : List Nat),
      ex (pyStrip body ++ s2b ".JBR") = true →
        ERC.handle_file_request ex (s2b "02,052") body =
          .putFile (s2b "02,002") (pyStrip body ++ s2b ".JBR") ∧
        ERC.response_code_spec (s2b "02,052") = some (s2b "02,002")) ∧
    (∀ code stem, (code, stem) ∈ ERC.datRequestPairs →
      ∀ (ex : List Nat → Bool) (body : List Nat),
      pyStrip body = stem → ex (stem ++ s2b ".DAT") = true →
        ERC.handle_file_request ex code body =
          .putFile ((ERC.response_code_spec code).getD []) (stem ++ s2b ".DAT") ∧
        (ERC.response_code_spec code).isSome = true) := by
  refine ⟨?_, ?_, ?_⟩
  · intro ex body hex
    have hext : ERC.header_extension_lookup (s2b "02,051") = s2b ".JBI" := by decide
    refine ⟨?_, by decide⟩
    simp only [ERC.handle_file_request, hext, hex, if_true]
    rw [header_code_lookup_jbi _ (isSuffixOf_append_self _ _)]
  · intro ex body hex
    have hext : ERC.header_extension_lookup (s2b "02,052") = s2b ".JBR" := by decide
    refine ⟨?_, by decide⟩
    simp only [ERC.handle_file_request, hext, hex, if_true]
    rw [header_code_lookup_jbr _ (not_jbi_suffix_jbr _) (isSuffixOf_append_self _ _)]
  · intro code stem hmem ex body hstrip hex
    have hfacts : ∀ p ∈ ERC.datRequestPairs,
        ERC.header_extension_lookup p.1 = s2b ".DAT" ∧
        ERC.header_code_lookup (s2b "put") (p.2 ++ s2b ".DAT") =
          some ((ERC.response_code_spec p.1).getD []) ∧
        (ERC.response_code_spec p.1).isSome = true := by
      decide
    obtain ⟨hext, hlook, hsome⟩ := hfacts (code, stem) hmem
    exact ⟨dat_request_case code stem _ hext hlook ex body hstrip hex, hsome⟩

/-- C8 counterexample: a handled `02,061` request naming `TOOL` (with
`TOOL.DAT` existing) is answered with a put under `02,012` — the code of the
file actually named — while the claim's `NN − 50` arithmetic demands
`02,011`. -/
theorem C8_counterexample :
    ERC.handle_file_request (fun f => f == s2b "TOOL.DAT") (s2b "02,061")
      (s2b "TOOL") = .putFile (s2b "02,012") (s2b "TOOL.DAT") ∧
    ERC.response_code_spec (s2b "02,061") = some (s2b "02,011") ∧
    s2b "02,012" ≠ s2b "02,011" := by
  decide

/-- C8 witness: the amended theorem at a `02,051` job request and at a
matching `02,061` WEAV request. -/
theorem C8_witness :
    (ERC.handle_file_request (fun f => f == s2b "J1.JBI") (s2b "02,051")
        (s2b "J1") = .putFile (s2b "02,001") (pyStrip (s2b "J1") ++ s2b ".JBI") ∧
      ERC.response_code_spec (s2b "02,051") = some (s2b "02,001")) ∧
    (ERC.handle_file_request (fun f => f == s2b "WEAV.DAT") (s2b "02,061")
        (s2b "WEAV") =
        .putFile ((ERC.response_code_spec (s2b "02,061")).getD [])
          (s2b "WEAV" ++ s2b ".DAT") ∧
      (ERC.response_code_spec (s2b "02,061")).isSome = true) :=
  ⟨C8_reverse_code_via_lookup.1 _ _ (by decide),
   C8_reverse_code_via_lookup.2.2 _ _ (by decide) _ _ (by decide) (by decide)⟩

namespace ERC

lemma appendChecksum_eq {blk b : List Nat} (h : appendChecksum blk = some b) :
    b = blk ++ chkOf blk ∧ (blk.drop 1).sum ≤ 65535 := by
  unfold appendChecksum at h
  cases hp : struct_pack_H ((checksum blk (blk.length + 2) 1 : Nat) : Int) with
  | none => rw [hp] at h; exact absurd h (by simp)
  | some c =>
    rw [hp] at h
    obtain ⟨-, hle, hc⟩ := struct_pack_H_eq_some hp
    have hb : b = blk ++ c := by simpa using h.symm
    have hsum : checksum blk (blk.length + 2) 1 = (blk.drop 1).sum := by
      unfold checksum
      rw [List.take_of_length_le (by omega)]
    have hle' : (blk.drop 1).sum ≤ 65535 := by
      rw [← hsum]
      exact_mod_cast hle
    refine ⟨?_, hle'⟩
    rw [hb, hc]
    unfold chkOf
    rw [← hsum]
    simp

lemma encodeRest_sound :
    ∀ (cs : List (List Nat)) (fc i : Nat) (bs : List (List Nat)),
    encodeRest fc i cs = some bs →
    bs.length = cs.length ∧
    ∀ j b, bs[j]? = some b →
      ∃ ch, cs[j]? = some ch ∧
        b = ([STXb] ++ ch ++ [if i + j < fc then ETBb else ETXb]) ++
            chkOf ([STXb] ++ ch ++ [if i + j < fc then ETBb else ETXb]) ∧
        (([STXb] ++ ch ++ [if i + j < fc then ETBb else ETXb]).drop 1).sum ≤ 65535 := by
  intro cs
  induction cs with
  | nil =>
    intro fc i bs h
    have hbs : bs = [] := by simpa [encodeRest] using h.symm
    subst hbs
    exact ⟨rfl, fun j b hj => by simp at hj⟩
  | cons c t ih =>
    intro fc i bs h
    unfold encodeRest at h
    cases happ : appendChecksum ([STXb] ++ c ++ [if i < fc then ETBb else ETXb]) with
    | none => rw [happ] at h; exact absurd h (by simp)
    | some b0 =>
      rw [happ] at h
      cases hrest : encodeRest fc (i + 1) t with
      | none => rw [hrest] at h; exact absurd h (by simp)
      | some bs' =>
        rw [hrest] at h
        have hbs : bs = b0 :: bs' := by simpa using h.symm
        subst hbs
        obtain ⟨hlen, hall⟩ := ih fc (i + 1) bs' hrest
        obtain ⟨hb0, hle0⟩ := appendChecksum_eq happ
        refine ⟨by simp [hlen], ?_⟩
        intro j b hj
        match j with
        | 0 =>
          have hb : b = b0 := by simpa using hj.symm
          refine ⟨c, by simp, ?_, ?_⟩
          · rw [hb, hb0]
            simp
          · simpa using hle0
        | j' + 1 =>
          simp only [List.getElem?_cons_succ] at hj
          obtain ⟨ch, hch, hb, hle⟩ := hall j' b hj
          refine ⟨ch, by simpa using hch, ?_, ?_⟩
          · rw [show i + (j' + 1) = i + 1 + j' from by omega]
            exact hb
          · rw [show i + (j' + 1) = i + 1 + j' from by omega]
            exact hle

lemma encode_sound {header body : List Nat} {nb : Bool} {bs : List (List Nat)}
    (h : encode header body nb = some bs) :
    (bodyChunks body nb) ≠ [] ∧
    bs.length = (bodyChunks body nb).length ∧
    ∀ j b, bs[j]? = some b →
      ∃ ch, (bodyChunks body nb)[j]? = some ch ∧
        b = (blockHdr header j ++ ch ++ [blockTerm (bodyChunks body nb).length j]) ++
            chkOf (blockHdr header j ++ ch ++
              [blockTerm (bodyChunks body nb).length j]) ∧
        ((blockHdr header j ++ ch ++
          [blockTerm (bodyChunks body nb).length j]).drop 1).sum ≤ 65535 := by
  unfold encode at h
  cases hcs : bodyChunks body nb with
  | nil => rw [hcs] at h; exact absurd h (by simp)
  | cons c0 rest =>
    rw [hcs] at h
    simp only at h
    cases happ : appendChecksum ([SOHb] ++ header ++ [STXb] ++ c0 ++
        [if 0 < rest.length then ETBb else ETXb]) with
    | none => rw [happ] at h; exact absurd h (by simp)
    | some b0 =>
      rw [happ] at h
      cases hrest : encodeRest (rest.length - 1) 0 rest with
      | none => rw [hrest] at h; exact absurd h (by simp)
      | some bs' =>
        rw [hrest] at h
        have hbs : bs = b0 :: bs' := by simpa using h.symm
        subst hbs
        obtain ⟨hb0, hle0⟩ := appendChecksum_eq happ
        obtain ⟨hlen, hall⟩ := encodeRest_sound rest (rest.length - 1) 0 bs' hrest
        refine ⟨by simp, by simp [hlen], ?_⟩
        intro j b hj
        match j with
        | 0 =>
          have hb : b = b0 := by simpa using hj.symm
          have hterm : (if 0 < rest.length then ETBb else ETXb) =
              blockTerm (rest.length + 1) 0 := by
            unfold blockTerm
            rcases Nat.eq_zero_or_pos rest.length with hz | hp
            · rw [hz, if_neg (by omega), if_pos (by omega)]
            · rw [if_pos hp, if_neg (by omega)]
          refine ⟨c0, by simp, ?_, ?_⟩
          · rw [hb, hb0]
            simp [hterm, blockHdr, List.append_assoc]
          · simpa [← hterm, blockHdr, List.append_assoc] using hle0
        | j' + 1 =>
          simp only [List.getElem?_cons_succ] at hj
          obtain ⟨ch, hch, hb, hle⟩ := hall j' b hj
          have hjlen : j' < rest.length := (List.getElem?_eq_some.mp hch).1
          have hterm : (if j' < rest.length - 1 then ETBb else ETXb) =
              blockTerm (rest.length + 1) (j' + 1) := by
            unfold blockTerm
            by_cases hc : j' + 1 = rest.length
            · rw [if_neg (by omega), if_pos (by omega)]
            · rw [if_pos (by omega), if_neg (by omega)]
          refine ⟨ch, by simpa using hch, ?_, ?_⟩
          · rw [hb]
            simp [hterm, blockHdr, List.append_assoc]
          · simpa [← hterm, blockHdr, List.append_assoc] using hle

lemma chunksGo_nil_any (n fuel : Nat) : chunksGo n fuel [] = [] := by
  cases fuel <;> rfl

lemma chunksGo_single : ∀ (n fuel : Nat) (l : List Nat), l ≠ [] → l.length ≤ n →
    l.length ≤ fuel → chunksGo n fuel l = [l]
  | n, 0, [], h0, _, _ => absurd rfl h0
  | n, 0, c :: t, _, _, hf => by simp at hf
  | n, fuel + 1, [], h0, _, _ => absurd rfl h0
  | n, fuel + 1, c :: t, _, hn, hf => by
    have hlen : t.length ≤ n - 1 := by simp at hn; omega
    unfold chunksGo
    rw [List.take_of_length_le hlen, List.drop_eq_nil_of_le hlen, chunksGo_nil_any]

lemma chunksOf_single {n : Nat} {l : List Nat} (h0 : l ≠ []) (hn : l.length ≤ n) :
    chunksOf n l = [l] :=
  chunksGo_single n l.length l h0 hn (le_refl _)

lemma chunksOf_pair {n : Nat} {l : List Nat} (h1 : n < l.length)
    (h2 : l.length ≤ 2 * n) : chunksOf n l = [l.take n, l.drop n] := by
  have hn : 0 < n := by omega
  obtain ⟨m, rfl⟩ : ∃ m, n = m + 1 := ⟨n - 1, by omega⟩
  cases l with
  | nil => simp at h1
  | cons c t =>
    show chunksGo (m + 1) (t.length + 1) (c :: t) = _
    unfold chunksGo
    have hmt : m < t.length := by simp at h1; omega
    have htake : c :: t.take (m + 1 - 1) = (c :: t).take (m + 1) := by
      simp
    have hdrop : t.drop (m + 1 - 1) = (c :: t).drop (m + 1) := by
      simp
    rw [htake, hdrop]
    congr 1
    apply chunksGo_single
    · apply List.ne_nil_of_length_pos
      simp
      omega
    · simp at h2 ⊢
      omega
    · simp

end ERC

/-- C5 (amended): every block `encode` emits — block 0 and continuation
blocks alike — carries a two-byte little-endian checksum equal to the sum of
the block's bytes STRICTLY AFTER its first byte (after the SOH for block 0,
and after the leading STX for continuation blocks, the STX itself excluded)
through and including the terminator, taken modulo 65536.  The claim's
"from the STX itself" coverage is refuted by the counterexample. -/
theorem C5_block_checksum_coverage (hdr body : List Nat) (nb : Bool)
    (bs : List (List Nat)) (h : ERC.encode hdr body nb = some bs)
    (b : List Nat) (hmem : b ∈ bs) :
    b.drop (b.length - 2) =
      [((b.take (b.length - 2)).drop 1).sum % 65536 % 256,
       ((b.take (b.length - 2)).drop 1).sum % 65536 / 256] := by
  obtain ⟨j, hj, hjb⟩ := List.mem_iff_getElem.mp hmem
  have hj2 : bs[j]? = some b := by
    rw [List.getElem?_eq_getElem hj]
    exact congrArg some hjb
  obtain ⟨-, -, hall⟩ := ERC.encode_sound h
  obtain ⟨ch, -, hb, hle⟩ := hall j b hj2
  set blk := ERC.blockHdr hdr j ++ ch ++
    [ERC.blockTerm (ERC.bodyChunks body nb).length j] with hblkdef
  have hchklen : (ERC.chkOf blk).length = 2 := rfl
  have hblen : b.length = blk.length + 2 := by
    rw [hb]
    simp [hchklen]
  have hsub : b.length - 2 = blk.length := by omega
  have htake : b.take (b.length - 2) = blk := by
    rw [hsub, hb, List.take_left' rfl]
  have hdrop : b.drop (b.length - 2) = ERC.chkOf blk := by
    rw [hsub, hb, List.drop_left' rfl]
  rw [htake, hdrop]
  have hmod : (blk.drop 1).sum % 65536 = (blk.drop 1).sum :=
    Nat.mod_eq_of_lt (by omega)
  rw [hmod]
  rfl

/-- C5 counterexample: encoding a two-block name-block message, the
continuation block is `STX 'A' ETX` with stored checksum 68 = 'A' + ETX,
whereas the sum from the STX itself through the terminator is 70. -/
theorem C5_counterexample :
    ERC.encode (s2b "02,001") (s2b "N\rA") true =
      some [[1, 48, 50, 44, 48, 48, 49, 2, 78, 13, 23, 147, 1],
            [2, 65, 3, 68, 0]] ∧
    (([2, 65, 3, 68, 0] : List Nat).take 3).sum % 65536 = 70 ∧
    ([2, 65, 3, 68, 0] : List Nat).drop 3 = [68, 0] ∧
    (70 : Nat) ≠ 68 := by
  decide

/-- C5 witness: the amended theorem applied to the continuation block of
that concrete encoding. -/
theorem C5_witness :
    ([2, 65, 3, 68, 0] : List Nat).drop (([2, 65, 3, 68, 0] : List Nat).length - 2) =
      [((([2, 65, 3, 68, 0] : List Nat).take
          (([2, 65, 3, 68, 0] : List Nat).length - 2)).drop 1).sum % 65536 % 256,
       ((([2, 65, 3, 68, 0] : List Nat).take
          (([2, 65, 3, 68, 0] : List Nat).length - 2)).drop 1).sum % 65536 / 256] :=
  C5_block_checksum_coverage (s2b "02,001") (s2b "N\rA") true
    [[1, 48, 50, 44, 48, 48, 49, 2, 78, 13, 23, 147, 1], [2, 65, 3, 68, 0]]
    (by decide) [2, 65, 3, 68, 0] (by decide)

/-- C6 (amended): when `encode` succeeds, a body of exactly 256 bytes yields
one block and a body of 257 bytes yields two blocks with bodies of 256 and 1
bytes; in the resulting list exactly the last block is terminated by ETX and
every earlier block by ETB; and with the name-block flag set, block 0's body
is the body's prefix before the first `\r` with a `\r` appended, irrespective
of that prefix's length.  (`encode` itself raises on an empty chunk list —
`body_chunks.pop(0)` on an empty body — and on checksum sums above 0xFFFF,
see the counterexample.) -/
theorem C6_encode_block_structure :
    (∀ (hdr body : List Nat) (bs : List (List Nat)), body.length = 256 →
      ERC.encode hdr body false = some bs →
      bs = [(ERC.blockHdr hdr 0 ++ body ++ [ERC.ETXb]) ++
            ERC.chkOf (ERC.blockHdr hdr 0 ++ body ++ [ERC.ETXb])]) ∧
    (∀ (hdr body : List Nat) (bs : List (List Nat)), body.length = 257 →
      ERC.encode hdr body false = some bs →
      bs = [(ERC.blockHdr hdr 0 ++ body.take 256 ++ [ERC.ETBb]) ++
              ERC.chkOf (ERC.blockHdr hdr 0 ++ body.take 256 ++ [ERC.ETBb]),
            ([ERC.STXb] ++ body.drop 256 ++ [ERC.ETXb]) ++
              ERC.chkOf ([ERC.STXb] ++ body.drop 256 ++ [ERC.ETXb])]) ∧
    (∀ (hdr body : List Nat) (nb : Bool) (bs : List (List Nat)) (j : Nat)
        (b : List Nat),
      ERC.encode hdr body nb = some bs → bs[j]? = some b →
      b[b.length - 3]? =
        some (if j = bs.length - 1 then ERC.ETXb else ERC.ETBb)) ∧
    (∀ (hdr body : List Nat) (bs : List (List Nat)),
      ERC.encode hdr body true = some bs →
      bs[0]? = some ((ERC.blockHdr hdr 0 ++
          (body.takeWhile (fun c => c != 13) ++ [13]) ++
          [if bs.length = 1 then ERC.ETXb else ERC.ETBb]) ++
        ERC.chkOf (ERC.blockHdr hdr 0 ++
          (body.takeWhile (fun c => c != 13) ++ [13]) ++
          [if bs.length = 1 then ERC.ETXb else ERC.ETBb]))) := by
  refine ⟨?_, ?_, ?_, ?_⟩
  · intro hdr body bs hlen henc
    obtain ⟨hne, hbslen, hall⟩ := ERC.encode_sound henc
    have hchunks : ERC.bodyChunks body false = [body] := by
      show chunksOf 256 body = [body]
      exact ERC.chunksOf_single (List.ne_nil_of_length_pos (by omega)) (by omega)
    have h1 : bs.length = 1 := by rw [hbslen, hchunks]; rfl
    obtain ⟨b, rfl⟩ := List.length_eq_one.mp h1
    obtain ⟨ch, hch, hb, -⟩ := hall 0 b (by simp)
    have hch2 : ch = body := by
      rw [hchunks] at hch
      simpa using hch.symm
    rw [hch2] at hb
    have hT : ERC.blockTerm (ERC.bodyChunks body false).length 0 = ERC.ETXb := by
      rw [hchunks]
      rfl
    rw [hb, hT]
  · intro hdr body bs hlen henc
    obtain ⟨hne, hbslen, hall⟩ := ERC.encode_sound henc
    have hchunks : ERC.bodyChunks body false = [body.take 256, body.drop 256] := by
      show chunksOf 256 body = [body.take 256, body.drop 256]
      exact ERC.chunksOf_pair (by omega) (by omega)
    have h2 : bs.length = 2 := by rw [hbslen, hchunks]; rfl
    obtain ⟨b0, b1, rfl⟩ := List.length_eq_two.mp h2
    obtain ⟨ch0, hch0, hb0, -⟩ := hall 0 b0 (by simp)
    obtain ⟨ch1, hch1, hb1, -⟩ := hall 1 b1 (by simp)
    have hch0e : ch0 = body.take 256 := by
      rw [hchunks] at hch0
      simpa using hch0.symm
    have hch1e : ch1 = body.drop 256 := by
      rw [hchunks] at hch1
      simpa using hch1.symm
    rw [hch0e] at hb0
    rw [hch1e] at hb1
    have hT0 : ERC.blockTerm (ERC.bodyChunks body false).length 0 = ERC.ETBb := by
      rw [hchunks]
      rfl
    have hT1 : ERC.blockTerm (ERC.bodyChunks body false).length 1 = ERC.ETXb := by
      rw [hchunks]
      rfl
    have hH1 : ERC.blockHdr hdr 1 = [ERC.STXb] := rfl
    rw [hb0, hb1, hT0, hT1, hH1]
  · intro hdr body nb bs j b henc hj
    obtain ⟨-, hbslen, hall⟩ := ERC.encode_sound henc
    obtain ⟨ch, hch, hb, -⟩ := hall j b hj
    set blk := ERC.blockHdr hdr j ++ ch ++
      [ERC.blockTerm (ERC.bodyChunks body nb).length j] with hblkdef
    have hchklen : (ERC.chkOf blk).length = 2 := rfl
    have hblen : b.length = blk.length + 2 := by
      rw [hb]
      simp [hchklen]
    have hblk1 : blk.length = (ERC.blockHdr hdr j ++ ch).length + 1 := by
      rw [hblkdef]
      simp only [List.length_append, List.length_cons, List.length_nil]
    have hidx : b.length - 3 = (ERC.blockHdr hdr j ++ ch).length := by omega
    have hassoc : blk ++ ERC.chkOf blk = (ERC.blockHdr hdr j ++ ch) ++
        ([ERC.blockTerm (ERC.bodyChunks body nb).length j] ++ ERC.chkOf blk) := by
      simp [hblkdef, List.append_assoc]
    rw [hidx, hb, hassoc, List.getElem?_append_right (le_refl _)]
    simp only [Nat.sub_self, List.getElem?_cons_zero]
    rw [hbslen]
    rfl
  · intro hdr body bs henc
    obtain ⟨hne, hbslen, hall⟩ := ERC.encode_sound henc
    have hlen0 : 0 < bs.length := by
      rw [hbslen]
      exact List.length_pos.mpr hne
    cases hbs0 : bs[0]? with
    | none =>
      have := List.getElem?_eq_none_iff.mp hbs0
      omega
    | some b =>
      obtain ⟨ch, hch, hb, -⟩ := hall 0 b hbs0
      have hch2 : ch = body.takeWhile (fun c => c != 13) ++ [13] := by
        have hbc : (ERC.bodyChunks body true)[0]? =
            some ((pyPartition 13 body).1 ++ [13]) := by
          simp [ERC.bodyChunks]
        rw [hbc] at hch
        have h3 := Option.some.inj hch
        rw [← h3, pyPartition_fst]
      have hT : ERC.blockTerm (ERC.bodyChunks body true).length 0 =
          (if bs.length = 1 then ERC.ETXb else ERC.ETBb) := by
        unfold ERC.blockTerm
        rw [← hbslen]
        by_cases h1 : bs.length = 1
        · rw [if_pos (by omega), if_pos h1]
        · rw [if_neg (by omega), if_neg h1]
      rw [hb, hch2, hT]

set_option maxRecDepth 40000 in
/-- C6 counterexample: `encode` does not produce a block list for every
header and body — on an empty body `body_chunks.pop(0)` raises `IndexError`,
and on a 256-byte body of `0xFF` bytes the block checksum exceeds `0xFFFF`
and `struct.pack("<H", …)` raises, so no single block is produced. -/
theorem C6_counterexample :
    ERC.encode (s2b "90,000") [] false = none ∧
    ERC.encode (s2b "90,000") (List.replicate 256 255) false = none ∧
    (List.replicate 256 255).length = 256 := by
  decide

set_option maxRecDepth 40000 in
/-- C6 witness: concrete 256- and 257-byte bodies and the concrete
name-block message, through the structure theorem. -/
theorem C6_witness :
    (ERC.encode (s2b "01,000") (List.replicate 256 0) false =
      some [(ERC.blockHdr (s2b "01,000") 0 ++ List.replicate 256 0 ++ [ERC.ETXb]) ++
        ERC.chkOf (ERC.blockHdr (s2b "01,000") 0 ++ List.replicate 256 0 ++
          [ERC.ETXb])]) ∧
    (ERC.encode (s2b "01,000") (List.replicate 257 0) false =
      some [(ERC.blockHdr (s2b "01,000") 0 ++ (List.replicate 257 0).take 256 ++
          [ERC.ETBb]) ++
        ERC.chkOf (ERC.blockHdr (s2b "01,000") 0 ++ (List.replicate 257 0).take 256 ++
          [ERC.ETBb]),
        ([ERC.STXb] ++ (List.replicate 257 0).drop 256 ++ [ERC.ETXb]) ++
          ERC.chkOf ([ERC.STXb] ++ (List.replicate 257 0).drop 256 ++
            [ERC.ETXb])]) ∧
    (([2, 65, 3, 68, 0] : List Nat)[([2, 65, 3, 68, 0] : List Nat).length - 3]? =
      some (if 1 = ([[1, 48, 50, 44, 48, 48, 49, 2, 78, 13, 23, 147, 1],
        [2, 65, 3, 68, 0]] : List (List Nat)).length - 1 then ERC.ETXb
        else ERC.ETBb)) ∧
    (([[1, 48, 50, 44, 48, 48, 49, 2, 78, 13, 23, 147, 1],
        [2, 65, 3, 68, 0]] : List (List Nat))[0]? =
      some ((ERC.blockHdr (s2b "02,001") 0 ++
          ((s2b "N\rA").takeWhile (fun c => c != 13) ++ [13]) ++
          [if ([[1, 48, 50, 44, 48, 48, 49, 2, 78, 13, 23, 147, 1],
            [2, 65, 3, 68, 0]] : List (List Nat)).length = 1 then ERC.ETXb
           else ERC.ETBb]) ++
        ERC.chkOf (ERC.blockHdr (s2b "02,001") 0 ++
          ((s2b "N\rA").takeWhile (fun c => c != 13) ++ [13]) ++
          [if ([[1, 48, 50, 44, 48, 48, 49, 2, 78, 13, 23, 147, 1],
            [2, 65, 3, 68, 0]] : List (List Nat)).length = 1 then ERC.ETXb
           else ERC.ETBb]))) := by
  have hA : ERC.encode (s2b "01,000") (List.replicate 256 0) false =
      some [[1, 48, 49, 44, 48, 48, 48, 2] ++ List.replicate 256 0 ++ [3, 34, 1]] := by
    decide
  have hB : ERC.encode (s2b "01,000") (List.replicate 257 0) false =
      some [[1, 48, 49, 44, 48, 48, 48, 2] ++ List.replicate 256 0 ++ [23, 54, 1],
            [2, 0, 3, 3, 0]] := by
    decide
  have hNB : ERC.encode (s2b "02,001") (s2b "N\rA") true =
      some [[1, 48, 50, 44, 48, 48, 49, 2, 78, 13, 23, 147, 1],
            [2, 65, 3, 68, 0]] := by
    decide
  exact ⟨hA.trans (congrArg some
      (C6_encode_block_structure.1 _ _ _ (by simp) hA)),
    hB.trans (congrArg some
      (C6_encode_block_structure.2.1 _ _ _ (by simp) hB)),
    C6_encode_block_structure.2.2.1 _ _ _ _ 1 _ hNB (by decide),
    C6_encode_block_structure.2.2.2 _ _ _ hNB⟩

namespace MotoDisk

lemma s2b_FWT : s2b "FWT" = [70, 87, 84] := by decide

lemma s2b_FRD : s2b "FRD" = [70, 82, 68] := by decide

lemma emulateStep_fwt (fl : Option (List (List Nat))) (ow : Bool)
    (ex : List Nat → Bool) (ld : List (List Nat)) (t : List Nat) :
    emulateStep fl ow ex ld (s2b "FWT" ++ t) =
      match fwt_resolve ex ow (pyRstrip t) with
      | .ok target => .fileWrite target
      | .error e => .pyError e := by
  have h1 : s2b "ENQ" = [69, 78, 81] := by decide
  have h2 : s2b "EOT" = [69, 79, 84] := by decide
  have h3 : s2b "CAN" = [67, 65, 78] := by decide
  have h4 : s2b "ACK" = [65, 67, 75] := by decide
  have h5 : s2b "LST" = [76, 83, 84] := by decide
  have h6 : s2b "DSZ" = [68, 83, 90] := by decide
  have hfrd : (s2b "FRD").isPrefixOf (s2b "FWT" ++ t) = false := by
    rw [s2b_FRD, s2b_FWT]
    simp [List.isPrefixOf]
  have hfwt : (s2b "FWT").isPrefixOf (s2b "FWT" ++ t) = true := by
    rw [s2b_FWT]
    simp [List.isPrefixOf]
  have hdrop : (s2b "FWT" ++ t).drop 3 = t := by
    rw [s2b_FWT]
    rfl
  unfold emulateStep
  rw [if_neg (by rw [h1, s2b_FWT]; simp),
      if_neg (by rw [h2, s2b_FWT]; simp),
      if_neg (by rw [h3, s2b_FWT]; simp),
      if_neg (by rw [h4, s2b_FWT]; simp),
      if_neg (by rw [h5, s2b_FWT]; simp),
      if_neg (by rw [h6, s2b_FWT]; simp),
      hfrd, hfwt, hdrop]
  simp

lemma emulateStep_frd (fl : Option (List (List Nat))) (ow : Bool)
    (ex : List Nat → Bool) (ld : List (List Nat)) (t : List Nat) :
    emulateStep fl ow ex ld (s2b "FRD" ++ t) =
      (if pyTruthyList fl && !((fl.getD []).contains (pyRstrip t)) then
        .fatalWhitelist
      else .fileRead (pyRstrip t)) := by
  have h1 : s2b "ENQ" = [69, 78, 81] := by decide
  have h2 : s2b "EOT" = [69, 79, 84] := by decide
  have h3 : s2b "CAN" = [67, 65, 78] := by decide
  have h4 : s2b "ACK" = [65, 67, 75] := by decide
  have h5 : s2b "LST" = [76, 83, 84] := by decide
  have h6 : s2b "DSZ" = [68, 83, 90] := by decide
  have hfrd : (s2b "FRD").isPrefixOf (s2b "FRD" ++ t) = true := by
    rw [s2b_FRD]
    simp [List.isPrefixOf]
  have hdrop : (s2b "FRD" ++ t).drop 3 = t := by
    rw [s2b_FRD]
    rfl
  unfold emulateStep
  rw [if_neg (by rw [h1, s2b_FRD]; simp),
      if_neg (by rw [h2, s2b_FRD]; simp),
      if_neg (by rw [h3, s2b_FRD]; simp),
      if_neg (by rw [h4, s2b_FRD]; simp),
      if_neg (by rw [h5, s2b_FRD]; simp),
      if_neg (by rw [h6, s2b_FRD]; simp),
      hfrd, hdrop]
  simp

end MotoDisk

/-- C9: the FWT dispatch branch never consults the whitelist — the step the
engine takes on any `FWT…` packet is identical under every `filelist`
configuration — and whenever the write-target resolution itself succeeds
(overwrite allowed, or the requested name absent on disk) the engine
proceeds with the file write; only the FRD branch turns a configured
whitelist that lacks the requested filename into a fatal error. -/
theorem C9_fwt_bypasses_whitelist :
    (∀ (fl fl' : Option (List (List Nat))) (ow : Bool) (ex : List Nat → Bool)
        (ld : List (List Nat)) (t : List Nat),
      MotoDisk.emulateStep fl ow ex ld (s2b "FWT" ++ t) =
        MotoDisk.emulateStep fl' ow ex ld (s2b "FWT" ++ t)) ∧
    (∀ (fl : Option (List (List Nat))) (ow : Bool) (ex : List Nat → Bool)
        (ld : List (List Nat)) (t : List Nat),
      ow = true ∨ ex (pyRstrip t) = false →
      MotoDisk.emulateStep fl ow ex ld (s2b "FWT" ++ t) =
        .fileWrite (pyRstrip t)) ∧
    (∀ (fl : Option (List (List Nat))) (ow : Bool) (ex : List Nat → Bool)
        (ld : List (List Nat)) (t : List Nat),
      MotoDisk.pyTruthyList fl = true →
      (fl.getD []).contains (pyRstrip t) = false →
      MotoDisk.emulateStep fl ow ex ld (s2b "FRD" ++ t) = .fatalWhitelist) := by
  refine ⟨?_, ?_, ?_⟩
  · intro fl fl' ow ex ld t
    rw [MotoDisk.emulateStep_fwt, MotoDisk.emulateStep_fwt]
  · intro fl ow ex ld t hcase
    rw [MotoDisk.emulateStep_fwt]
    have hres : MotoDisk.fwt_resolve ex ow (pyRstrip t) = .ok (pyRstrip t) := by
      unfold MotoDisk.fwt_resolve
      rcases hcase with how | hex
      · rw [how]
        simp
      · rw [hex]
        simp
    rw [hres]
  · intro fl ow ex ld t hT hC
    rw [MotoDisk.emulateStep_frd, hT, hC]
    rfl

/-- C9 witness: the three parts at a concrete packet, whitelist and
filesystem. -/
theorem C9_witness :
    (MotoDisk.emulateStep none false (fun _ => false) [] (s2b "FWT" ++ s2b "X.JBI") =
      MotoDisk.emulateStep (some [s2b "A.JBI"]) false (fun _ => false) []
        (s2b "FWT" ++ s2b "X.JBI")) ∧
    (MotoDisk.emulateStep (some [s2b "A.JBI"]) false (fun _ => false) []
        (s2b "FWT" ++ s2b "X.JBI") = .fileWrite (pyRstrip (s2b "X.JBI"))) ∧
    (MotoDisk.emulateStep (some [s2b "A.JBI"]) false (fun _ => false) []
        (s2b "FRD" ++ s2b "X.JBI") = .fatalWhitelist) :=
  ⟨C9_fwt_bypasses_whitelist.1 none (some [s2b "A.JBI"]) false (fun _ => false) []
      (s2b "X.JBI"),
   C9_fwt_bypasses_whitelist.2.1 (some [s2b "A.JBI"]) false (fun _ => false) []
      (s2b "X.JBI") (Or.inr rfl),
   C9_fwt_bypasses_whitelist.2.2 (some [s2b "A.JBI"]) false (fun _ => false) []
      (s2b "X.JBI") (by decide) (by decide)⟩
